import Mathlib

/-!
Verification of the ImageAutoCropper UV-crop pipeline.

The development shallowly embeds the operators of `export_uv_info.py` (the
`ExportUVInfo` namespace) and `export_uv_infoV1.py` (the `ExportUVInfoV1`
namespace), the two files the verified properties are about: Python floats
are modelled as rationals, Python dicts (which preserve insertion order) as
association lists, and fallible code as `Option` or `Except`.  Definitions
come first, theorems after them.
-/

set_option maxHeartbeats 1000000

/-- Integer pixel-space bounding box `(xmin, ymin, xmax, ymax)`, with the
`y` coordinates measured from the top of the raster. -/
structure Box where
  x0 : Int
  y0 : Int
  x1 : Int
  y1 : Int
deriving DecidableEq, Repr

namespace ExportUVInfo

/-- The `unique` dict of `export_uv_info.py` (image name → list of distinct
bounding boxes); Python dicts keep insertion order, hence an association
list. -/
abbrev DedupState := List (String × List Box)

/-- `unique.setdefault(name, [])` read access: the box list stored for
`name`, or `[]` when absent. -/
def lookupBoxes (st : DedupState) (name : String) : List Box :=
  match st.find? (fun p => p.1 == name) with
  | some p => p.2
  | none => []

/-- Store a box list under `name`, replacing the existing entry in place or
appending a fresh key, exactly as a Python dict assignment does. -/
def setBoxes : DedupState → String → List Box → DedupState
  | [], name, lst => [(name, lst)]
  | p :: rest, name, lst =>
    if p.1 == name then (name, lst) :: rest else p :: setBoxes rest name lst

/-- Python `list.index(b) + 1`: the 1-based position of the first occurrence
of `b` (on lists that do not contain `b` the Python call would raise; the
model is only consulted under a membership hypothesis). -/
def index1 : List Box → Box → Nat
  | [], _ => 1
  | c :: rest, b => if c = b then 1 else index1 rest b + 1

/-- `export_uv_info.py`, `ExportUVInfoOperator.execute` lines 70-72:

    if bounds not in unique.setdefault(name, []):
        unique[name].append(bounds)
    variant = unique[name].index(bounds) + 1

Returns the 1-based variant index together with the updated table. -/
def dedup (st : DedupState) (name : String) (b : Box) : Nat × DedupState :=
  let lst := lookupBoxes st name
  let lst2 := if b ∈ lst then lst else lst ++ [b]
  (index1 lst2 b, setBoxes st name lst2)

/-- Running the deduplicator over an ordered input sequence, collecting the
variant index assigned to each element. -/
def runDedup : DedupState → List (String × Box) → List Nat
  | _, [] => []
  | st, (name, b) :: rest => (dedup st name b).1 :: runDedup (dedup st name b).2 rest

end ExportUVInfo

namespace ExportUVInfoV1

/-- `export_uv_infoV1.py`, `ExportUVInfoOperator.execute` lines 126-134, the
batch deduplication pass over one image's raw variant list (entries are
`(bounds, path, _)`; the third input component is ignored by the loop):

    unique = []
    seen = {}
    for bounds, path, _ in lst:
        if bounds not in seen:
            seen[bounds] = len(unique) + 1
            unique.append((bounds, path, seen[bounds]))

Since every key added to `seen` is simultaneously appended to `unique`, the
keys of `seen` are exactly the boxes of `unique`. -/
def dedupPass (lst : List (Box × String)) : List (Box × String × Nat) :=
  lst.foldl
    (fun unique bp =>
      if bp.1 ∈ unique.map (fun t => t.1) then unique
      else unique ++ [(bp.1, bp.2, unique.length + 1)])
    []

/-- The distinct elements of a list, in order of first occurrence. -/
def firstSeen : List Box → List Box
  | [] => []
  | b :: rest => b :: firstSeen (rest.filter (fun c => c ≠ b))
termination_by l => l.length
decreasing_by
  simp only [List.length_cons]
  exact Nat.lt_succ_of_le (List.length_filter_le _ _)

/-- `export_uv_infoV1.py`, `crop_task` lines 154-158: clamp the bounding box
against the source image dimensions `w × h`:

    x0 = max(0, min(x0, w - 1))
    y0 = max(0, min(y0, h - 1))
    x1 = max(x0 + 1, min(x1, w))
    y1 = max(y0 + 1, min(y1, h))
-/
def clampBox (w h : Int) (b : Box) : Box :=
  let x0 := max 0 (min b.x0 (w - 1))
  let y0 := max 0 (min b.y0 (h - 1))
  let x1 := max (x0 + 1) (min b.x1 w)
  let y1 := max (y0 + 1) (min b.y1 h)
  ⟨x0, y0, x1, y1⟩

/-- `export_uv_infoV1.py`, `crop_task` lines 147-167.  `srcExists` models
`os.path.exists(src_path)`; the result carries the clamped box together with
the dimensions of the cropped raster (a PIL crop of `(x0, y0, x1, y1)` has
size `(x1 - x0, y1 - y0)`).  `none` models the `return None` branches
(missing source file, or the degenerate-region check `x1 <= x0 or y1 <= y0`). -/
def crop_task (srcExists : Bool) (w h : Int) (b : Box) : Option (Box × Int × Int) :=
  if srcExists = false then none
  else
    let c := clampBox w h b
    if c.x1 ≤ c.x0 ∨ c.y1 ≤ c.y0 then none
    else some (c, c.x1 - c.x0, c.y1 - c.y0)

/-- Modelled from the claim wording of C3 / spec §4.4: clamp "flooring
xmin and ymin to 0, capping xmax at w and ymax at h, and forcing
xmax ≥ xmin+1 and ymax ≥ ymin+1" — with no cap of xmin at w−1 or of
ymin at h−1. -/
def clampClaim (w h : Int) (b : Box) : Box :=
  let x0 := max 0 b.x0
  let y0 := max 0 b.y0
  let x1 := max (x0 + 1) (min b.x1 w)
  let y1 := max (y0 + 1) (min b.y1 h)
  ⟨x0, y0, x1, y1⟩

end ExportUVInfoV1

/-- The slice of a Blender image the pipeline reads: dedup key (`name` — in
`export_uv_info.py` the basename of `image.filepath` plays this role),
source path, and integer dimensions. -/
structure ImageRef where
  name : String
  path : String
  w : Int
  h : Int
deriving DecidableEq, Repr

/-- A mesh face as the operators see it: its ordered UV loop (rationals model
Python floats) and the image resolved from its material by
`get_image_from_face` (`none` when no texture node resolves). -/
structure Face where
  loops : List (ℚ × ℚ)
  image : Option ImageRef
deriving DecidableEq, Repr

/-- Python `int(...)`: truncation toward zero. -/
def pyInt (q : ℚ) : Int := if q < 0 then ⌈q⌉ else ⌊q⌋

/-- Python `min(...)` over a list; Python raises on an empty list (bmesh
faces always carry at least three loops, so the `[]` case is unreachable in
the gather loops; it is given a default value to keep the model total). -/
def listMin : List ℚ → ℚ
  | [] => 0
  | q :: rest => rest.foldl min q

/-- Python `max(...)` over a list; see `listMin` for the `[]` case. -/
def listMax : List ℚ → ℚ
  | [] => 0
  | q :: rest => rest.foldl max q

namespace ExportUVInfo

/-- `export_uv_info.py` lines 157-159: vertical flip of a raw pixel-space
box `(xmin, ymin, xmax, ymax)` against image height `h`. -/
def convert_coords (c : ℚ × ℚ × ℚ × ℚ) (h : ℚ) : ℚ × ℚ × ℚ × ℚ :=
  (c.1, h - c.2.2.2, c.2.2.1, h - c.2.1)

/-- `export_uv_info.py` lines 63-68: scale the UV loop by the image size,
take min/max, flip with `convert_coords`, then truncate every coordinate
with `int(...)`. -/
def faceBounds (uvs : List (ℚ × ℚ)) (w h : Int) : Box :=
  let xs := uvs.map (fun p => p.1 * (w : ℚ))
  let ys := uvs.map (fun p => p.2 * (h : ℚ))
  let c := convert_coords (listMin xs, listMin ys, listMax xs, listMax ys) (h : ℚ)
  ⟨pyInt c.1, pyInt c.2.1, pyInt c.2.2.1, pyInt c.2.2.2⟩

end ExportUVInfo

namespace ExportUVInfoV1

/-- `export_uv_infoV1.py` lines 113-117 (per-face mode; lines 97-100 are the
identical computation in island mode): scale the UV loop by the image size,
truncate the min/max with `int(...)` first, and then flip vertically. -/
def faceBounds (uvs : List (ℚ × ℚ)) (w h : Int) : Box :=
  let xs := uvs.map (fun p => p.1 * (w : ℚ))
  let ys := uvs.map (fun p => p.2 * (h : ℚ))
  ⟨pyInt (listMin xs), h - pyInt (listMax ys), pyInt (listMax xs), h - pyInt (listMin ys)⟩

end ExportUVInfoV1

/-- Modelled from the claim wording of C7 / spec §8: a single UV point is
said to yield the box `(floor(u·w), h − ceil(v·h), ceil(u·w), h − floor(v·h))`. -/
def specPointBounds (u v : ℚ) (w h : Int) : Box :=
  ⟨⌊u * (w : ℚ)⌋, h - ⌈v * (h : ℚ)⌉, ⌈u * (w : ℚ)⌉, h - ⌊v * (h : ℚ)⌋⟩

namespace ExportUVInfoV1

/-- One loop iteration of the island scan (`export_uv_infoV1.py` lines
87-94): for every loop of a member face the face's image is re-resolved;
whenever it resolves, `img` is overwritten and the scaled UV appended to
`coords`.  (The `global_sizes` write on this path is modelled in the gather
embedding below.) -/
def scanLoopStep (f : Face) (acc2 : List (ℚ × ℚ) × Option ImageRef) (uv : ℚ × ℚ) :
    List (ℚ × ℚ) × Option ImageRef :=
  match f.image with
  | some im => (acc2.1 ++ [(uv.1 * (im.w : ℚ), uv.2 * (im.h : ℚ))], some im)
  | none => acc2

/-- The island scan's outer loop body: fold `scanLoopStep` over one member
face's loops. -/
def scanFaceStep (acc : List (ℚ × ℚ) × Option ImageRef) (f : Face) :
    List (ℚ × ℚ) × Option ImageRef :=
  f.loops.foldl (scanLoopStep f) acc

/-- `export_uv_infoV1.py` lines 85-94: scan an island's member faces,
accumulating `coords` and the (repeatedly overwritten) island image. -/
def islandScan (group : List Face) : List (ℚ × ℚ) × Option ImageRef :=
  group.foldl scanFaceStep ([], none)

/-- The image of the last member face (in scan order) with a nonempty loop
list that resolves a non-null image — the value the loop of lines 85-94
actually leaves in `img`. -/
def lastImage : List Face → Option ImageRef
  | [] => none
  | f :: rest =>
    match lastImage rest with
    | some im => some im
    | none => if f.loops = [] then none else f.image

/-- Modelled from the claim wording of C5 / spec §4.2: the island's image is
said to be the one resolved by the first member face (in scan order) that
resolves a non-null image. -/
def firstImage (group : List Face) : Option ImageRef :=
  group.findSome? (fun f => f.image)

/-- `export_uv_infoV1.py` lines 95-104 condensed to their control flow: an
island whose scan produced no coordinates or no image is skipped
(`continue`); the `String` list carries the warnings reported on this path
(the code has no `self.report` call here). -/
def islandOutcome (group : List Face) :
    Option (List (ℚ × ℚ) × ImageRef) × List String :=
  match islandScan group with
  | (_, none) => (none, [])
  | (coords, some im) => if coords = [] then (none, []) else (some (coords, im), [])

/-- Processing a sequence of islands: dropped islands contribute nothing and
the loop moves on to the next island. -/
def processIslands (groups : List (List Face)) :
    List (List (ℚ × ℚ) × ImageRef) × List String :=
  groups.foldl
    (fun acc g =>
      match islandOutcome g with
      | (none, ws) => (acc.1, acc.2 ++ ws)
      | (some o, ws) => (acc.1 ++ [o], acc.2 ++ ws))
    ([], [])

/-- One candidate asset file of the batch walk (already filtered to
`.obj`/`.fbx` by the extension test of line 372): whether its import call
raises, and how many mesh objects the import selects. -/
structure Asset where
  name : String
  importRaises : Bool
  meshCount : Nat
deriving DecidableEq, Repr

/-- `export_uv_infoV1.py`, `ProcessMultipleOperator.execute` lines 370-425,
condensed to its per-asset control flow.  There is no `try`/`except` in the
loop: an import exception propagates out of `execute` (second component);
an import yielding no mesh objects hits `continue` (line 383-384); otherwise
the asset is processed and its fixed OBJ exported.  The accumulator holds
the `_Fix.obj` files exported so far. -/
def processMultipleGo : List String → List Asset → List String × Option String
  | outs, [] => (outs, none)
  | outs, a :: rest =>
    if a.importRaises then (outs, some ("import failed: " ++ a.name))
    else if a.meshCount = 0 then processMultipleGo outs rest
    else processMultipleGo (outs ++ [a.name ++ "_Fix.obj"]) rest

/-- The whole batch run: exported files, the uncaught exception if any, and
the final report — which line 424 issues as the fixed string
"Batch processing complete." only when the loop finishes without raising. -/
def processMultiple (assets : List Asset) :
    List String × Option String × Option String :=
  match processMultipleGo [] assets with
  | (outs, some e) => (outs, some e, none)
  | (outs, none) => (outs, none, some "Batch processing complete.")

end ExportUVInfoV1

/-- A mesh face's mutable state as the remap loops see it: its material
index and its UV loop. -/
structure FaceState where
  matIndex : Nat
  uvs : List (ℚ × ℚ)
deriving DecidableEq, Repr

/-- Python `dict.get` / `dict[...]` read on an insertion-ordered dict. -/
def lookupA {α β : Type} [DecidableEq α] (m : List (α × β)) (k : α) : Option β :=
  match m.find? (fun p => p.1 = k) with
  | some p => some p.2
  | none => none

/-- The per-face UV refill (`export_uv_info.py` lines 136-147,
`export_uv_infoV1.py` lines 217-226): linearly rescale the face's own UV
extent to the unit square, skipped when either span is not positive. -/
def uvFill (uvs : List (ℚ × ℚ)) : List (ℚ × ℚ) :=
  let minU := listMin (uvs.map Prod.fst)
  let maxU := listMax (uvs.map Prod.fst)
  let minV := listMin (uvs.map Prod.snd)
  let maxV := listMax (uvs.map Prod.snd)
  let du := maxU - minU
  let dv := maxV - minV
  if 0 < du ∧ 0 < dv then
    uvs.map (fun p => ((p.1 - minU) / du, (p.2 - minV) / dv))
  else uvs

namespace ExportUVInfo

/-- `export_uv_info.py` lines 115-147, the remap body for one
FaceAssignment.  `image_map.get((orig_name, variant), (None, None))`
returning no path hits `continue`: the face is returned untouched and
nothing is recorded.  Otherwise the face's material index is set (via the
memoized material table, modelled by `matIndexOf`) and its UVs refilled. -/
def remapFace (imageMap : List ((String × Nat) × String × String))
    (matIndexOf : String → Nat) (name : String) (variant : Nat)
    (face : FaceState) : FaceState :=
  match lookupA imageMap (name, variant) with
  | none => face
  | some _ =>
    { matIndex := matIndexOf (name ++ "_variant" ++ toString variant),
      uvs := uvFill face.uvs }

end ExportUVInfo

namespace ExportUVInfoV1

/-- The material names created by `export_uv_infoV1.py` lines 181-190: one
per entry of `image_map`, i.e. one per successful crop. -/
def matNames (imageMap : List ((String × Nat) × String)) : List String :=
  imageMap.map (fun p => p.1.1 ++ "_variant" ++ toString p.1.2)

/-- `mat_index_map` of line 201, keyed by the names of `mats`; `matFind`
models `obj.data.materials.find`. -/
def matIndexMapOf (imageMap : List ((String × Nat) × String))
    (matFind : String → Nat) : List (String × Nat) :=
  (matNames imageMap).map (fun n => (n, matFind n))

/-- `export_uv_infoV1.py` lines 203-226, the remap body for one assignment.
Every Python lookup that can raise is modelled in `Except`:
`global_variants[name]` (KeyError), the `next(...)` search for the variant
id (StopIteration), `mat_index_map[mat_name]` (KeyError — materials exist
only for crops present in `image_map`), and `global_sizes[name]` (KeyError;
the gather phase puts every assigned image name into `global_sizes`, so
this one cannot fire in a run, and the model may check it before the
material-index mutation without changing reachable behaviour). -/
def remapFaceV1 (gv : List (String × List (Box × String × Nat)))
    (matIndexMap : List (String × Nat))
    (globalSizes : List (String × Int × Int))
    (cropBounds : List ((String × Nat) × Box))
    (cropPerBorder : Bool)
    (name : String) (bounds : Box) (face : FaceState) : Except String FaceState :=
  match lookupA gv name with
  | none => .error "KeyError: global_variants"
  | some variants =>
    match variants.find? (fun s => s.1 = bounds) with
    | none => .error "StopIteration"
    | some t =>
      let matName := name ++ "_variant" ++ toString t.2.2
      match lookupA matIndexMap matName with
      | none => .error ("KeyError: " ++ matName)
      | some mi =>
        match lookupA globalSizes name with
        | none => .error "KeyError: global_sizes"
        | some wh =>
          let uvs2 :=
            match cropPerBorder, lookupA cropBounds (name, t.2.2) with
            | true, some cb =>
              face.uvs.map (fun p =>
                ((p.1 * (wh.1 : ℚ) - (cb.x0 : ℚ)) / ((cb.x1 : ℚ) - (cb.x0 : ℚ)),
                 (p.2 * (wh.2 : ℚ) - (cb.y0 : ℚ)) / ((cb.y1 : ℚ) - (cb.y0 : ℚ))))
            | _, _ => uvFill face.uvs
          .ok { matIndex := mi, uvs := uvs2 }

/-- The remap loop over the assignment list (lines 203-226), mutating the
face array in place; a raised lookup aborts the loop with the exception. -/
def remapPassV1 (gv : List (String × List (Box × String × Nat)))
    (matIndexMap : List (String × Nat))
    (globalSizes : List (String × Int × Int))
    (cropBounds : List ((String × Nat) × Box))
    (cropPerBorder : Bool) :
    List (Nat × String × Box) → List FaceState → Except String (List FaceState)
  | [], faces => .ok faces
  | (idx, name, bounds) :: rest, faces =>
    match faces.get? idx with
    | none => .error "IndexError"
    | some f =>
      match remapFaceV1 gv matIndexMap globalSizes cropBounds cropPerBorder
          name bounds f with
      | .error e => .error e
      | .ok f2 =>
        remapPassV1 gv matIndexMap globalSizes cropBounds cropPerBorder
          rest (faces.set idx f2)

/-- Lines 179-229: the whole remap stage, guarded by
`if self.remap_model and image_map:` — with an empty `image_map` (all crops
failed or cropping disabled) the stage is skipped and every face is left
untouched. -/
def remapAllV1 (remapModel : Bool) (imageMap : List ((String × Nat) × String))
    (matFind : String → Nat) (gv : List (String × List (Box × String × Nat)))
    (globalSizes : List (String × Int × Int))
    (cropBounds : List ((String × Nat) × Box)) (cropPerBorder : Bool)
    (assignments : List (Nat × String × Box)) (faces : List FaceState) :
    Except String (List FaceState) :=
  if remapModel = true ∧ imageMap ≠ [] then
    remapPassV1 gv (matIndexMapOf imageMap matFind) globalSizes cropBounds
      cropPerBorder assignments faces
  else .ok faces

end ExportUVInfoV1

/-- Python `str(...)` of an integer 4-tuple, as written into the
coordinates listing. -/
def boxStr (b : Box) : String :=
  "(" ++ toString b.x0 ++ ", " ++ toString b.y0 ++ ", " ++ toString b.x1
    ++ ", " ++ toString b.y1 ++ ")"

/-- One line of the sizes listing (`export_uv_info.py` line 90,
`export_uv_infoV1.py` line 272): `("{name}", {w}, {h}),`. -/
def sizeLine (name : String) (w h : Int) : String :=
  "(\"" ++ name ++ "\", " ++ toString w ++ ", " ++ toString h ++ "),"

/-- `dict.setdefault(name, []).append(v)` on an insertion-ordered dict of
lists: append to the existing entry, or append a fresh key at the end. -/
def appendEntry {β : Type} : List (String × List β) → String → β → List (String × List β)
  | [], name, v => [(name, [v])]
  | p :: rest, name, v =>
    if p.1 = name then (name, p.2 ++ [v]) :: rest else p :: appendEntry rest name v

namespace ExportUVInfoV1

/-- `export_uv_infoV1.py` line 261: one line of `uv_coordinates.txt`. -/
def coordLine (name : String) (vid : Nat) (b : Box) : String :=
  boxStr b ++ ",    # \x27" ++ name ++ "_variant" ++ toString vid ++ "\x27"

/-- Line 262: one line of `image_names.txt`. -/
def nameLine (name : String) (vid : Nat) : String :=
  "\"" ++ name ++ "_variant" ++ toString vid ++ "\","

/-- Line 263: one line of `image_names_to_crop.txt`. -/
def cropLine (name : String) : String := "\"" ++ name ++ "\","

/-- `export_uv_infoV1.py` lines 258-263: walk the deduplicated
`global_variants` table and append, in the same loop body, one line to each
of the three listings per variant. -/
def metadataLines (gv : List (String × List (Box × String × Nat))) :
    List String × List String × List String :=
  gv.foldl
    (fun acc nv =>
      nv.2.foldl
        (fun acc2 t =>
          (acc2.1 ++ [coordLine nv.1 t.2.2 t.1],
           acc2.2.1 ++ [nameLine nv.1 t.2.2],
           acc2.2.2 ++ [cropLine nv.1]))
        acc)
    ([], [], [])

/-- Lines 270-272: `image_sizes.txt` is written by iterating
`global_sizes.items()` — one line per image name, with no per-variant
repetition. -/
def sizesLines (gs : List (String × Int × Int)) : List String :=
  gs.map (fun s => sizeLine s.1 s.2.1 s.2.2)

/-- The `(name, bounds, variant_id)` triple of every variant in table
order — the unit the three listings are generated from. -/
def variantTriples (gv : List (String × List (Box × String × Nat))) :
    List (String × Box × Nat) :=
  (gv.map (fun nv => nv.2.map (fun t => (nv.1, t.1, t.2.2)))).flatten

/-- Lines 126-134 applied to every image of `global_variants`. -/
def dedupAll (raw : List (String × List (Box × String))) :
    List (String × List (Box × String × Nat)) :=
  raw.map (fun p => (p.1, dedupPass p.2))

/-- `global_sizes[name] = (w, h)`: dict assignment, replacing in place or
appending a fresh key. -/
def setSize : List (String × Int × Int) → String → Int × Int → List (String × Int × Int)
  | [], name, wh => [(name, wh.1, wh.2)]
  | p :: rest, name, wh =>
    if p.1 = name then (name, wh.1, wh.2) :: rest else p :: setSize rest name wh

/-- The gather state of `ExportUVInfoOperator.execute`: the raw (pre-dedup)
`global_variants` table, `global_sizes`, and the per-face `assignments`. -/
structure GatherState where
  variants : List (String × List (Box × String))
  sizes : List (String × Int × Int)
  assignments : List (Nat × String × Box)
deriving DecidableEq, Repr

/-- `export_uv_infoV1.py` lines 107-120 (per-face mode), the loop body for
one face (paired with its index): a face that resolves no image is skipped;
otherwise its bounds are computed, the image size recorded, the raw variant
appended and the assignment recorded. -/
def gatherFaceV1 (st : GatherState) (idxface : Nat × Face) : GatherState :=
  match idxface.2.image with
  | none => st
  | some im =>
    let b := faceBounds idxface.2.loops im.w im.h
    { variants := appendEntry st.variants im.name (b, im.path),
      sizes := setSize st.sizes im.name (im.w, im.h),
      assignments := st.assignments ++ [(idxface.1, im.name, b)] }

/-- The whole per-face gather loop over `bm.faces`. -/
def gatherV1 (faces : List Face) : GatherState :=
  faces.enum.foldl gatherFaceV1 ⟨[], [], []⟩

end ExportUVInfoV1

namespace ExportUVInfo

/-- `export_uv_info.py` line 76: one line of `uv_coordinates.txt` (note the
"coords for" wording, unlike V1). -/
def coordLine (name : String) (vid : Nat) (b : Box) : String :=
  boxStr b ++ ",    # coords for \x27" ++ name ++ "_variant" ++ toString vid ++ "\x27"

/-- Line 74: one line of `image_names.txt`. -/
def nameLine (name : String) (vid : Nat) : String :=
  "\"" ++ name ++ "_variant" ++ toString vid ++ "\","

/-- Line 75: one line of `image_names_to_crop.txt`. -/
def cropLine (name : String) : String := "\"" ++ name ++ "\","

/-- `dimensions.setdefault(name, (w, h))`: insert only when absent. -/
def setDefaultDim : List (String × Int × Int) → String → Int × Int → List (String × Int × Int)
  | [], name, wh => [(name, wh.1, wh.2)]
  | p :: rest, name, wh =>
    if p.1 = name then p :: rest else p :: setDefaultDim rest name wh

/-- `count[name] = count.get(name, 0) + 1`. -/
def bumpCount : List (String × Nat) → String → List (String × Nat)
  | [], name => [(name, 1)]
  | p :: rest, name =>
    if p.1 = name then (name, p.2 + 1) :: rest else p :: bumpCount rest name

/-- The state built by the face loop of `export_uv_info.py` lines 56-82. -/
structure PyState where
  unique : DedupState
  coordData : List String
  nameData : List String
  cropData : List String
  dims : List (String × Int × Int)
  count : List (String × Nat)
  boundsPerImage : List (String × List (Box × String × Nat))
  faceAssignments : List (Nat × String × Nat × Box)
deriving DecidableEq, Repr

/-- `export_uv_info.py` lines 56-82, the loop body for one face (paired
with its index): skip faces that resolve no image; otherwise compute the
bounds, deduplicate them to get the variant index, and append one line to
each of the three listings in the same loop body, then update the
dimension, count, per-image and per-face tables.  (`ImageRef.name` plays
the role of `bpy.path.basename(image.filepath)`.) -/
def pyFaceStep (st : PyState) (idxface : Nat × Face) : PyState :=
  match idxface.2.image with
  | none => st
  | some im =>
    let b := faceBounds idxface.2.loops im.w im.h
    let r := dedup st.unique im.name b
    { unique := r.2,
      coordData := st.coordData ++ [coordLine im.name r.1 b],
      nameData := st.nameData ++ [nameLine im.name r.1],
      cropData := st.cropData ++ [cropLine im.name],
      dims := setDefaultDim st.dims im.name (im.w, im.h),
      count := bumpCount st.count im.name,
      boundsPerImage := appendEntry st.boundsPerImage im.name (b, im.path, r.1),
      faceAssignments := st.faceAssignments ++ [(idxface.1, im.name, r.1, b)] }

/-- The whole face loop of `export_uv_info.py`. -/
def pyExport (faces : List Face) : PyState :=
  faces.enum.foldl pyFaceStep ⟨[], [], [], [], [], [], [], []⟩

/-- `export_uv_info.py` lines 87-90: the sizes file repeats each image's
`(name, w, h)` line once per face counted for that image (`count[name]`
cannot miss for a key of `dimensions`; the model defaults the impossible
miss to 0). -/
def sizeLinesPy (dims : List (String × Int × Int)) (count : List (String × Nat)) :
    List String :=
  (dims.map (fun d =>
    List.replicate ((lookupA count d.1).getD 0) (sizeLine d.1 d.2.1 d.2.2))).flatten

end ExportUVInfo

namespace ExportUVInfoV1

/-- `export_uv_infoV1.py` lines 74-84, the iterative stack-based flood fill
of island mode.  Faces are identified with their indices (`Fin n`, iterated
in index order as `bm.faces` is); `adj f` is the flattened
`[lf for e in f.edges for lf in e.link_faces]` neighbour list (which may
contain `f` itself, as `e.link_faces` does).  The Python `list.pop()` takes
the most recently appended face, so the pushed neighbours (those not yet
visited, line 83) enter the head-is-top stack in reverse list order. -/
def flood {n : Nat} (adj : Fin n → List (Fin n)) :
    List (Fin n) → Finset (Fin n) → List (Fin n) × Finset (Fin n)
  | [], visited => ([], visited)
  | f :: rest, visited =>
    if _hv : f ∈ visited then flood adj rest visited
    else
      let r := flood adj
        (((adj f).filter (fun lf => lf ∉ insert f visited)).reverse ++ rest)
        (insert f visited)
      (f :: r.1, r.2)
termination_by stack visited => (∑ g ∈ visitedᶜ, ((adj g).length + 1)) + stack.length
decreasing_by
  · simp only [List.length_cons]
    omega
  · have hf : f ∈ visitedᶜ := Finset.mem_compl.mpr _hv
    have hsum := Finset.sum_erase_add visitedᶜ (fun g => (adj g).length + 1) hf
    beta_reduce at hsum
    have hlen : (((adj f).filter (fun lf => lf ∉ insert f visited)).reverse).length
        ≤ (adj f).length := by
      rw [List.length_reverse]
      exact List.length_filter_le _ _
    rw [Finset.compl_insert]
    simp only [List.length_append, List.length_cons]
    omega

/-- `export_uv_infoV1.py` lines 71-84, the outer island loop: every face not
yet visited seeds one flood fill; the filled group becomes one island. -/
def floodAll {n : Nat} (adj : Fin n → List (Fin n)) :
    List (Fin n) → Finset (Fin n) → List (List (Fin n))
  | [], _ => []
  | f :: faces, visited =>
    if f ∈ visited then floodAll adj faces visited
    else (flood adj [f] visited).1 :: floodAll adj faces (flood adj [f] visited).2

/-- The islands of a mesh with faces `0, …, n-1` and shared-edge neighbour
lists `adj`. -/
def islands {n : Nat} (adj : Fin n → List (Fin n)) : List (List (Fin n)) :=
  floodAll adj (List.finRange n) ∅

/-- Transitive edge-sharing reachability between faces: the reflexive
transitive closure of "g appears in f's neighbour list". -/
def Reach {n : Nat} (adj : Fin n → List (Fin n)) : Fin n → Fin n → Prop :=
  Relation.ReflTransGen (fun a b => b ∈ adj a)

/-- A visited set that already contains every neighbour of its members. -/
def ClosedUnder {n : Nat} (adj : Fin n → List (Fin n)) (v : Finset (Fin n)) : Prop :=
  ∀ x ∈ v, ∀ g ∈ adj x, g ∈ v

end ExportUVInfoV1

/-- A concrete 3-face mesh for the C6 witness: faces 0 and 1 share an edge,
face 2 is isolated. -/
def adjEx : Fin 3 → List (Fin 3) :=
  fun i => if i = 0 then [1] else if i = 1 then [0] else []


namespace ExportUVInfo

theorem lookupBoxes_setBoxes (st : DedupState) (name : String) (lst : List Box) :
    lookupBoxes (setBoxes st name lst) name = lst := by
  induction st with
  | nil => simp [setBoxes, lookupBoxes, List.find?]
  | cons p rest ih =>
    by_cases h : p.1 == name
    · simp [setBoxes, h, lookupBoxes, List.find?]
    · simpa [setBoxes, h, lookupBoxes, List.find?] using ih

theorem index1_append_self (l : List Box) (b : Box) (h : b ∉ l) :
    index1 (l ++ [b]) b = l.length + 1 := by
  induction l with
  | nil => simp [index1]
  | cons c rest ih =>
    have hcb : ¬ c = b := by
      intro he; exact h (by simp [he])
    have hrest : b ∉ rest := fun hm => h (List.mem_cons_of_mem _ hm)
    simp [index1, hcb, ih hrest]

theorem index1_spec (l : List Box) (b : Box) (h : b ∈ l) :
    l.get? (index1 l b - 1) = some b ∧ b ∉ l.take (index1 l b - 1) := by
  induction l with
  | nil => cases h
  | cons c rest ih =>
    by_cases hcb : c = b
    · simp [index1, hcb]
    · have hmem : b ∈ rest := by
        rcases List.mem_cons.mp h with h1 | h1
        · exact absurd h1.symm hcb
        · exact h1
      obtain ⟨h1, h2⟩ := ih hmem
      have hpos : 1 ≤ index1 rest b := by
        cases rest with
        | nil => cases hmem
        | cons d t =>
          by_cases hdb : d = b
          · simp [index1, hdb]
          · simp only [index1, hdb, if_false]; omega
      constructor
      · have : index1 (c :: rest) b - 1 = (index1 rest b - 1) + 1 := by
          simp [index1, hcb]; omega
        rw [this]
        simpa using h1
      · have : index1 (c :: rest) b - 1 = (index1 rest b - 1) + 1 := by
          simp [index1, hcb]; omega
        rw [this, List.take_succ_cons]
        intro hmem2
        rcases List.mem_cons.mp hmem2 with h3 | h3
        · exact hcb h3.symm
        · exact h2 h3

end ExportUVInfo

namespace ExportUVInfoV1

theorem dedupPass_go (l : List (Box × String)) :
    ∀ acc : List (Box × String × Nat),
      (l.foldl
        (fun unique bp =>
          if bp.1 ∈ unique.map (fun t => t.1) then unique
          else unique ++ [(bp.1, bp.2, unique.length + 1)])
        acc).map (fun t => t.1)
      = acc.map (fun t => t.1)
        ++ firstSeen ((l.map Prod.fst).filter
            (fun b => b ∉ acc.map (fun t => t.1))) := by
  induction l with
  | nil => intro acc; simp [firstSeen]
  | cons bp rest ih =>
    intro acc
    by_cases hmem : bp.1 ∈ acc.map (fun t => t.1)
    · simp only [List.foldl_cons, hmem, if_true, List.map_cons]
      rw [ih acc]
      congr 1
      have : (Prod.fst bp :: rest.map Prod.fst).filter
          (fun b => b ∉ acc.map (fun t => t.1))
          = (rest.map Prod.fst).filter (fun b => b ∉ acc.map (fun t => t.1)) := by
        simp [List.filter_cons, hmem]
      rw [this]
    · simp only [List.foldl_cons, hmem, if_false, List.map_cons]
      rw [ih (acc ++ [(bp.1, bp.2, acc.length + 1)])]
      have hfc : (Prod.fst bp :: rest.map Prod.fst).filter
          (fun b => b ∉ acc.map (fun t => t.1))
          = bp.1 :: (rest.map Prod.fst).filter
              (fun b => b ∉ acc.map (fun t => t.1)) := by
        simp [List.filter_cons, hmem]
      rw [hfc]
      have hstep : firstSeen (bp.1 :: (rest.map Prod.fst).filter
          (fun b => b ∉ acc.map (fun t => t.1)))
          = bp.1 :: firstSeen (((rest.map Prod.fst).filter
              (fun b => b ∉ acc.map (fun t => t.1))).filter
                (fun c => c ≠ bp.1)) := by
        rw [firstSeen]
      rw [hstep]
      have hff : ((rest.map Prod.fst).filter
          (fun b => b ∉ acc.map (fun t => t.1))).filter (fun c => c ≠ bp.1)
          = (rest.map Prod.fst).filter
              (fun b => b ∉ (acc ++ [(bp.1, bp.2, acc.length + 1)]).map
                (fun t => t.1)) := by
        rw [List.filter_filter]
        apply List.filter_congr
        intro x _
        simp only [List.map_append, List.map_cons, List.map_nil, List.mem_append,
          List.mem_singleton, decide_not]
        by_cases h1 : x ∈ acc.map (fun t => t.1) <;> by_cases h2 : x = bp.1 <;>
          simp [h1, h2]
      rw [hff]
      simp

theorem dedupPass_vids_go (l : List (Box × String)) :
    ∀ acc : List (Box × String × Nat),
      acc.map (fun t => t.2.2) = List.range' 1 acc.length →
      (l.foldl
        (fun unique bp =>
          if bp.1 ∈ unique.map (fun t => t.1) then unique
          else unique ++ [(bp.1, bp.2, unique.length + 1)])
        acc).map (fun t => t.2.2)
      = List.range' 1 (l.foldl
          (fun unique bp =>
            if bp.1 ∈ unique.map (fun t => t.1) then unique
            else unique ++ [(bp.1, bp.2, unique.length + 1)])
          acc).length := by
  induction l with
  | nil => intro acc h; simpa using h
  | cons bp rest ih =>
    intro acc h
    by_cases hmem : bp.1 ∈ acc.map (fun t => t.1)
    · simp only [List.foldl_cons, hmem, if_true]
      exact ih acc h
    · simp only [List.foldl_cons, hmem, if_false]
      apply ih
      have hlen : (acc ++ [(bp.1, bp.2, acc.length + 1)]).length = acc.length + 1 := by
        simp
      rw [hlen, List.map_append, h]
      have : List.range' 1 (acc.length + 1) = List.range' 1 acc.length ++ [1 + acc.length] := by
        simpa using @List.range'_concat 1 1 acc.length
      rw [this]
      simp [Nat.add_comm]

end ExportUVInfoV1

/-- C1: the Variant Deduplicator returns the existing 1-based position of an
already-seen box and leaves that image's distinct-box list unchanged;
an unseen box is appended and receives the new 1-based position (so the
distinct boxes are kept in first-seen order, as the batched dedup pass of
`export_uv_infoV1.py` also shows); and the assignment of variant indices is
deterministic: identical ordered input sequences receive identical
assignments. -/
theorem C1_dedup_first_seen (st : ExportUVInfo.DedupState) (name : String) (b : Box) :
    (b ∈ ExportUVInfo.lookupBoxes st name →
      (ExportUVInfo.dedup st name b).1
        = ExportUVInfo.index1 (ExportUVInfo.lookupBoxes st name) b ∧
      (ExportUVInfo.lookupBoxes st name).get?
          ((ExportUVInfo.dedup st name b).1 - 1) = some b ∧
      b ∉ (ExportUVInfo.lookupBoxes st name).take
          ((ExportUVInfo.dedup st name b).1 - 1) ∧
      ExportUVInfo.lookupBoxes (ExportUVInfo.dedup st name b).2 name
        = ExportUVInfo.lookupBoxes st name) ∧
    (b ∉ ExportUVInfo.lookupBoxes st name →
      (ExportUVInfo.dedup st name b).1
        = (ExportUVInfo.lookupBoxes st name).length + 1 ∧
      ExportUVInfo.lookupBoxes (ExportUVInfo.dedup st name b).2 name
        = ExportUVInfo.lookupBoxes st name ++ [b]) ∧
    (∀ l : List (Box × String),
      (ExportUVInfoV1.dedupPass l).map (fun t => t.1)
        = ExportUVInfoV1.firstSeen (l.map Prod.fst) ∧
      (ExportUVInfoV1.dedupPass l).map (fun t => t.2.2)
        = List.range' 1 (ExportUVInfoV1.dedupPass l).length) ∧
    (∀ s t : List (String × Box), s = t →
      ExportUVInfo.runDedup [] s = ExportUVInfo.runDedup [] t) := by
  refine ⟨?_, ?_, ?_, ?_⟩
  · intro h
    obtain ⟨h1, h2⟩ := ExportUVInfo.index1_spec _ _ h
    refine ⟨by simp [ExportUVInfo.dedup, h], ?_, ?_, ?_⟩
    · simpa [ExportUVInfo.dedup, h] using h1
    · simpa [ExportUVInfo.dedup, h] using h2
    · simp [ExportUVInfo.dedup, h, ExportUVInfo.lookupBoxes_setBoxes]
  · intro h
    refine ⟨?_, ?_⟩
    · simp [ExportUVInfo.dedup, h, ExportUVInfo.index1_append_self _ _ h]
    · simp [ExportUVInfo.dedup, h, ExportUVInfo.lookupBoxes_setBoxes]
  · intro l
    constructor
    · simpa using ExportUVInfoV1.dedupPass_go l []
    · exact ExportUVInfoV1.dedupPass_vids_go l [] (by simp)
  · intro s t h
    rw [h]

/-- Witness for C1 at a concrete state: image "A" already holds boxes
`[b1, b2]`; deduplicating `b2` returns position 2 and leaves the list
unchanged, deduplicating a fresh `b3` appends it at position 3. -/
theorem C1_dedup_first_seen_witness :
    (Box.mk 1 1 2 2 ∈ ExportUVInfo.lookupBoxes
        [("A", [Box.mk 0 0 1 1, Box.mk 1 1 2 2])] "A") ∧
    ((ExportUVInfo.dedup [("A", [Box.mk 0 0 1 1, Box.mk 1 1 2 2])] "A"
        (Box.mk 1 1 2 2)).1
      = ExportUVInfo.index1
          (ExportUVInfo.lookupBoxes [("A", [Box.mk 0 0 1 1, Box.mk 1 1 2 2])] "A")
          (Box.mk 1 1 2 2) ∧
     (ExportUVInfo.lookupBoxes [("A", [Box.mk 0 0 1 1, Box.mk 1 1 2 2])] "A").get?
        ((ExportUVInfo.dedup [("A", [Box.mk 0 0 1 1, Box.mk 1 1 2 2])] "A"
          (Box.mk 1 1 2 2)).1 - 1) = some (Box.mk 1 1 2 2) ∧
     Box.mk 1 1 2 2 ∉ (ExportUVInfo.lookupBoxes
          [("A", [Box.mk 0 0 1 1, Box.mk 1 1 2 2])] "A").take
        ((ExportUVInfo.dedup [("A", [Box.mk 0 0 1 1, Box.mk 1 1 2 2])] "A"
          (Box.mk 1 1 2 2)).1 - 1) ∧
     ExportUVInfo.lookupBoxes
        (ExportUVInfo.dedup [("A", [Box.mk 0 0 1 1, Box.mk 1 1 2 2])] "A"
          (Box.mk 1 1 2 2)).2 "A"
      = ExportUVInfo.lookupBoxes [("A", [Box.mk 0 0 1 1, Box.mk 1 1 2 2])] "A") :=
  ⟨by decide,
   (C1_dedup_first_seen [("A", [Box.mk 0 0 1 1, Box.mk 1 1 2 2])] "A"
     (Box.mk 1 1 2 2)).1 (by decide)⟩

/-- C2 counterexample: a box lying entirely outside an 8×8 image, namely
(100,100,110,110), is not rejected as degenerate: `crop_task` clamps it to
the 1×1 box (7,7,8,8) and crops successfully. -/
theorem C2_degenerate_cex :
    ExportUVInfoV1.crop_task true 8 8 (Box.mk 100 100 110 110)
      = some (Box.mk 7 7 8 8, 1, 1) := by decide

/-- C2 amended: the clamp forces `x1 ≥ x0 + 1` and `y1 ≥ y0 + 1`, so the
clamped box always has positive area, the degenerate-region branch of
`crop_task` is unreachable, and every box with an existing source file is
silently fixed into a positive-area box and cropped — never rejected. -/
theorem C2_no_degenerate_rejection (w h : Int) (b : Box) :
    (ExportUVInfoV1.clampBox w h b).x0 < (ExportUVInfoV1.clampBox w h b).x1 ∧
    (ExportUVInfoV1.clampBox w h b).y0 < (ExportUVInfoV1.clampBox w h b).y1 ∧
    ExportUVInfoV1.crop_task true w h b
      = some (ExportUVInfoV1.clampBox w h b,
          (ExportUVInfoV1.clampBox w h b).x1 - (ExportUVInfoV1.clampBox w h b).x0,
          (ExportUVInfoV1.clampBox w h b).y1 - (ExportUVInfoV1.clampBox w h b).y0) := by
  have hx : (ExportUVInfoV1.clampBox w h b).x0 < (ExportUVInfoV1.clampBox w h b).x1 := by
    simp only [ExportUVInfoV1.clampBox]
    omega
  have hy : (ExportUVInfoV1.clampBox w h b).y0 < (ExportUVInfoV1.clampBox w h b).y1 := by
    simp only [ExportUVInfoV1.clampBox]
    omega
  refine ⟨hx, hy, ?_⟩
  simp only [ExportUVInfoV1.crop_task]
  rw [if_neg (by simp), if_neg (by omega)]

/-- C3 counterexample: the clamp of `crop_task` also caps xmin at w−1 and
ymin at h−1, which the claimed formula omits; at box (100,100,110,110) on an
8×8 image the code clamps to (7,7,8,8) while the claimed formula yields
(100,100,101,101). -/
theorem C3_clamp_formula_cex :
    ExportUVInfoV1.clampBox 8 8 (Box.mk 100 100 110 110) = Box.mk 7 7 8 8 ∧
    ExportUVInfoV1.clampClaim 8 8 (Box.mk 100 100 110 110) = Box.mk 100 100 101 101 ∧
    ExportUVInfoV1.clampBox 8 8 (Box.mk 100 100 110 110)
      ≠ ExportUVInfoV1.clampClaim 8 8 (Box.mk 100 100 110 110) := by decide

/-- C3 amended: the clamp is the claimed formula with xmin additionally
capped at w−1 and ymin at h−1 (they agree whenever xmin ≤ w−1 and
ymin ≤ h−1); cropping (−5,−5,10,10) against an 8×8 image yields the clamped
box (0,0,8,8); and a successful crop produces a raster whose width and
height equal the clamped box's x1−x0 and y1−y0. -/
theorem C3_clamp_amended (w h : Int) (b : Box)
    (hx : b.x0 ≤ w - 1) (hy : b.y0 ≤ h - 1) :
    ExportUVInfoV1.clampBox w h b = ExportUVInfoV1.clampClaim w h b ∧
    ExportUVInfoV1.clampBox 8 8 (Box.mk (-5) (-5) 10 10) = Box.mk 0 0 8 8 ∧
    (∀ (w2 h2 : Int) (b2 : Box) (r : Box × Int × Int),
       ExportUVInfoV1.crop_task true w2 h2 b2 = some r →
       r.2.1 = r.1.x1 - r.1.x0 ∧ r.2.2 = r.1.y1 - r.1.y0) := by
  refine ⟨?_, by decide, ?_⟩
  · simp only [ExportUVInfoV1.clampBox, ExportUVInfoV1.clampClaim, Box.mk.injEq]
    refine ⟨?_, ?_, ?_, ?_⟩ <;> omega
  · intro w2 h2 b2 r hr
    simp only [ExportUVInfoV1.crop_task] at hr
    rw [if_neg (by simp)] at hr
    by_cases hc : (ExportUVInfoV1.clampBox w2 h2 b2).x1 ≤ (ExportUVInfoV1.clampBox w2 h2 b2).x0
        ∨ (ExportUVInfoV1.clampBox w2 h2 b2).y1 ≤ (ExportUVInfoV1.clampBox w2 h2 b2).y0
    · rw [if_pos hc] at hr
      cases hr
    · rw [if_neg hc] at hr
      cases hr
      exact ⟨rfl, rfl⟩

/-- Witness for C3's amended theorem at box (−5,−5,10,10) on an 8×8 image. -/
theorem C3_clamp_amended_witness :
    ((Box.mk (-5) (-5) 10 10).x0 ≤ (8 : Int) - 1 ∧
     (Box.mk (-5) (-5) 10 10).y0 ≤ (8 : Int) - 1) ∧
    (ExportUVInfoV1.clampBox 8 8 (Box.mk (-5) (-5) 10 10)
        = ExportUVInfoV1.clampClaim 8 8 (Box.mk (-5) (-5) 10 10) ∧
     ExportUVInfoV1.clampBox 8 8 (Box.mk (-5) (-5) 10 10) = Box.mk 0 0 8 8 ∧
     (∀ (w2 h2 : Int) (b2 : Box) (r : Box × Int × Int),
        ExportUVInfoV1.crop_task true w2 h2 b2 = some r →
        r.2.1 = r.1.x1 - r.1.x0 ∧ r.2.2 = r.1.y1 - r.1.y0)) :=
  ⟨by decide, C3_clamp_amended 8 8 (Box.mk (-5) (-5) 10 10) (by decide) (by decide)⟩

/-- C7 counterexample: at the single UV point (1/2, 1/2) on a 3×3 image both
implementations truncate the max coordinates exactly like the min
coordinates (Python `int`, i.e. floor for non-negative values), so neither
produces the claimed `ceil(u·w)` for xmax. -/
theorem C7_point_bounds_cex :
    ExportUVInfo.faceBounds [(1/2, 1/2)] 3 3 = Box.mk 1 1 1 1 ∧
    ExportUVInfoV1.faceBounds [(1/2, 1/2)] 3 3 = Box.mk 1 2 1 2 ∧
    specPointBounds (1/2) (1/2) 3 3 = Box.mk 1 1 2 2 ∧
    ExportUVInfo.faceBounds [(1/2, 1/2)] 3 3 ≠ specPointBounds (1/2) (1/2) 3 3 ∧
    ExportUVInfoV1.faceBounds [(1/2, 1/2)] 3 3 ≠ specPointBounds (1/2) (1/2) 3 3 := by
  have hf : ⌊(3 : ℚ) / 2⌋ = 1 := by
    rw [Int.floor_eq_iff]
    norm_num
  have hc : ⌈(3 : ℚ) / 2⌉ = 2 := by
    rw [Int.ceil_eq_iff]
    norm_num
  have h1 : ExportUVInfo.faceBounds [(1/2, 1/2)] 3 3 = Box.mk 1 1 1 1 := by
    simp only [ExportUVInfo.faceBounds, ExportUVInfo.convert_coords, List.map_cons,
      List.map_nil, listMin, listMax, List.foldl_nil, pyInt]
    norm_num [Box.mk.injEq, hf, hc, show ((3 : Int) : ℚ) - 3 / 2 = 3 / 2 by norm_num]
  have h2 : ExportUVInfoV1.faceBounds [(1/2, 1/2)] 3 3 = Box.mk 1 2 1 2 := by
    simp only [ExportUVInfoV1.faceBounds, List.map_cons, List.map_nil, listMin,
      listMax, List.foldl_nil, pyInt]
    norm_num [Box.mk.injEq, hf, hc]
  have h3 : specPointBounds (1/2) (1/2) 3 3 = Box.mk 1 1 2 2 := by
    simp only [specPointBounds]
    norm_num [Box.mk.injEq, hf, hc]
  refine ⟨h1, h2, h3, ?_, ?_⟩
  · rw [h1, h3]; decide
  · rw [h2, h3]; decide

/-- C7 amended: on a single UV point `(u, v)` (with the products
non-negative and `v·h ≤ h`, as for UVs in `[0,1]`), `export_uv_info.py`
yields `(floor(u·w), h − ceil(v·h), floor(u·w), h − ceil(v·h))` — the flip
`new_ymin = h − old_ymax` holds but xmax/ymax are truncated exactly like
xmin/ymin, not rounded up — and `export_uv_infoV1.py`, which truncates
before flipping, yields `(floor(u·w), h − floor(v·h), floor(u·w), h − floor(v·h))`. -/
theorem C7_point_bounds_amended (u v : ℚ) (w h : Int)
    (hu : 0 ≤ u * (w : ℚ)) (hv : 0 ≤ v * (h : ℚ)) (hvh : v * (h : ℚ) ≤ (h : ℚ)) :
    ExportUVInfo.faceBounds [(u, v)] w h
      = Box.mk ⌊u * (w : ℚ)⌋ (h - ⌈v * (h : ℚ)⌉) ⌊u * (w : ℚ)⌋ (h - ⌈v * (h : ℚ)⌉) ∧
    ExportUVInfoV1.faceBounds [(u, v)] w h
      = Box.mk ⌊u * (w : ℚ)⌋ (h - ⌊v * (h : ℚ)⌋) ⌊u * (w : ℚ)⌋ (h - ⌊v * (h : ℚ)⌋) := by
  have hflip : pyInt ((h : ℚ) - v * (h : ℚ)) = h - ⌈v * (h : ℚ)⌉ := by
    have h0 : ¬ ((h : ℚ) - v * (h : ℚ) < 0) := by linarith
    rw [pyInt, if_neg h0, sub_eq_add_neg, Int.floor_int_add, Int.floor_neg,
      ← sub_eq_add_neg]
  have hx : pyInt (u * (w : ℚ)) = ⌊u * (w : ℚ)⌋ := by
    rw [pyInt, if_neg (by linarith)]
  have hyv : pyInt (v * (h : ℚ)) = ⌊v * (h : ℚ)⌋ := by
    rw [pyInt, if_neg (by linarith)]
  constructor
  · simp only [ExportUVInfo.faceBounds, ExportUVInfo.convert_coords, List.map_cons,
      List.map_nil, listMin, listMax, List.foldl_nil]
    rw [hx, hflip]
  · simp only [ExportUVInfoV1.faceBounds, List.map_cons, List.map_nil, listMin,
      listMax, List.foldl_nil]
    rw [hx, hyv]

/-- Witness for C7's amended theorem at point (1/2, 1/2) on a 4×4 image. -/
theorem C7_point_bounds_amended_witness :
    ((0 : ℚ) ≤ (1 / 2 : ℚ) * ((4 : Int) : ℚ) ∧
     (0 : ℚ) ≤ (1 / 2 : ℚ) * ((4 : Int) : ℚ) ∧
     (1 / 2 : ℚ) * ((4 : Int) : ℚ) ≤ ((4 : Int) : ℚ)) ∧
    (ExportUVInfo.faceBounds [(1 / 2, 1 / 2)] 4 4
       = Box.mk ⌊(1 / 2 : ℚ) * ((4 : Int) : ℚ)⌋
           (4 - ⌈(1 / 2 : ℚ) * ((4 : Int) : ℚ)⌉)
           ⌊(1 / 2 : ℚ) * ((4 : Int) : ℚ)⌋
           (4 - ⌈(1 / 2 : ℚ) * ((4 : Int) : ℚ)⌉) ∧
     ExportUVInfoV1.faceBounds [(1 / 2, 1 / 2)] 4 4
       = Box.mk ⌊(1 / 2 : ℚ) * ((4 : Int) : ℚ)⌋
           (4 - ⌊(1 / 2 : ℚ) * ((4 : Int) : ℚ)⌋)
           ⌊(1 / 2 : ℚ) * ((4 : Int) : ℚ)⌋
           (4 - ⌊(1 / 2 : ℚ) * ((4 : Int) : ℚ)⌋)) :=
  ⟨by refine ⟨?_, ?_, ?_⟩ <;> norm_num,
   C7_point_bounds_amended (1 / 2) (1 / 2) 4 4 (by norm_num) (by norm_num) (by norm_num)⟩

namespace ExportUVInfoV1

theorem scanFaceStep_snd (acc : List (ℚ × ℚ) × Option ImageRef) (f : Face) :
    (scanFaceStep acc f).2
      = if f.loops = [] then acc.2
        else match f.image with | some im => some im | none => acc.2 := by
  cases him : f.image with
  | none =>
    have hid : ∀ (l : List (ℚ × ℚ)) (a : List (ℚ × ℚ) × Option ImageRef),
        l.foldl (scanLoopStep f) a = a := by
      intro l
      induction l with
      | nil => intro a; rfl
      | cons uv rest ih =>
        intro a
        simp only [List.foldl_cons, scanLoopStep, him]
        exact ih a
    simp only [scanFaceStep, hid]
    cases f.loops <;> simp
  | some im =>
    have hsome : ∀ (l : List (ℚ × ℚ)) (a : List (ℚ × ℚ) × Option ImageRef),
        (l.foldl (scanLoopStep f) a).2
          = if l = [] then a.2 else some im := by
      intro l
      induction l with
      | nil => intro a; rfl
      | cons uv rest ih =>
        intro a
        simp only [List.foldl_cons, ih, scanLoopStep, him]
        cases rest <;> simp
    simp only [scanFaceStep, hsome]

theorem islandScan_go_snd (group : List Face) :
    ∀ acc : List (ℚ × ℚ) × Option ImageRef,
      (group.foldl scanFaceStep acc).2
        = match lastImage group with
          | some im => some im
          | none => acc.2 := by
  induction group with
  | nil => intro acc; rfl
  | cons f rest ih =>
    intro acc
    simp only [List.foldl_cons, ih, lastImage]
    cases hrest : lastImage rest with
    | some im => rfl
    | none =>
      simp only [scanFaceStep_snd]
      by_cases hl : f.loops = []
      · simp [hl]
      · cases f.image <;> simp [hl]

theorem lastImage_none_of_all_none (group : List Face)
    (h : ∀ f ∈ group, f.image = none) : lastImage group = none := by
  induction group with
  | nil => rfl
  | cons f rest ih =>
    have h1 := h f (by simp)
    have h2 : lastImage rest = none := ih (fun g hg => h g (by simp [hg]))
    simp [lastImage, h2, h1]

end ExportUVInfoV1

/-- C5 counterexample: in an island of two faces whose materials resolve
different images A and B (in that scan order), the island scan leaves
image B — the last match, not the first; the claim-side first-match rule
yields A. -/
theorem C5_island_image_cex :
    (ExportUVInfoV1.islandScan
        [Face.mk [(0, 0)] (some (ImageRef.mk "A" "pA" 4 4)),
         Face.mk [(0, 0)] (some (ImageRef.mk "B" "pB" 4 4))]).2
      = some (ImageRef.mk "B" "pB" 4 4) ∧
    ExportUVInfoV1.firstImage
        [Face.mk [(0, 0)] (some (ImageRef.mk "A" "pA" 4 4)),
         Face.mk [(0, 0)] (some (ImageRef.mk "B" "pB" 4 4))]
      = some (ImageRef.mk "A" "pA" 4 4) ∧
    (ImageRef.mk "B" "pB" 4 4) ≠ (ImageRef.mk "A" "pA" 4 4) := by
  refine ⟨?_, by decide, by decide⟩
  rw [ExportUVInfoV1.islandScan, ExportUVInfoV1.islandScan_go_snd]
  decide

/-- C5 amended: the island's image is the one resolved by the last member
face (in scan order, among faces with a nonempty loop list) that resolves a
non-null image — last match wins — and if no member face resolves an image
the island is silently dropped (no diagnostic is emitted) while processing
continues with the remaining islands. -/
theorem C5_island_image_amended (group : List Face) :
    (ExportUVInfoV1.islandScan group).2 = ExportUVInfoV1.lastImage group ∧
    ((∀ f ∈ group, f.image = none) →
      ExportUVInfoV1.islandOutcome group = (none, []) ∧
      ∀ rest, ExportUVInfoV1.processIslands (group :: rest)
        = ExportUVInfoV1.processIslands rest) := by
  constructor
  · rw [ExportUVInfoV1.islandScan, ExportUVInfoV1.islandScan_go_snd]
    cases ExportUVInfoV1.lastImage group <;> rfl
  · intro h
    have hnone : (ExportUVInfoV1.islandScan group).2 = none := by
      rw [ExportUVInfoV1.islandScan, ExportUVInfoV1.islandScan_go_snd,
        ExportUVInfoV1.lastImage_none_of_all_none group h]
    have hout : ExportUVInfoV1.islandOutcome group = (none, []) := by
      rcases hscan : ExportUVInfoV1.islandScan group with ⟨coords, img⟩
      rw [hscan] at hnone
      simp only at hnone
      simp [ExportUVInfoV1.islandOutcome, hscan, hnone]
    refine ⟨hout, ?_⟩
    intro rest
    simp only [ExportUVInfoV1.processIslands, List.foldl_cons, hout, List.append_nil]

/-- Witness for C5's amended theorem: a singleton island whose face resolves
no image. -/
theorem C5_island_image_amended_witness :
    (∀ f ∈ [Face.mk [(0, 0)] none], f.image = none) ∧
    (ExportUVInfoV1.islandOutcome [Face.mk [(0, 0)] none] = (none, []) ∧
     ∀ rest, ExportUVInfoV1.processIslands ([Face.mk [(0, 0)] none] :: rest)
       = ExportUVInfoV1.processIslands rest) :=
  ⟨by decide, (C5_island_image_amended [Face.mk [(0, 0)] none]).2 (by decide)⟩

namespace ExportUVInfoV1

theorem processMultipleGo_raises (assets : List Asset) :
    ∀ outs, (∃ a ∈ assets, a.importRaises = true) →
      ((processMultipleGo outs assets).2).isSome = true := by
  induction assets with
  | nil => intro outs h; simp at h
  | cons a rest ih =>
    intro outs h
    by_cases ha : a.importRaises
    · simp [processMultipleGo, ha]
    · have hrest : ∃ b ∈ rest, b.importRaises = true := by
        rcases h with ⟨b, hb, hraises⟩
        rcases List.mem_cons.mp hb with h1 | h1
        · exact absurd (h1 ▸ hraises) ha
        · exact ⟨b, h1, hraises⟩
      by_cases hm : a.meshCount = 0 <;>
        simp [processMultipleGo, ha, hm, ih _ hrest]

theorem processMultipleGo_ok (assets : List Asset) :
    ∀ outs, (∀ a ∈ assets, a.importRaises = false) →
      (processMultipleGo outs assets).2 = none := by
  induction assets with
  | nil => intro outs _; rfl
  | cons a rest ih =>
    intro outs h
    have ha : a.importRaises = false := h a (by simp)
    have hrest : ∀ b ∈ rest, b.importRaises = false :=
      fun b hb => h b (by simp [hb])
    by_cases hm : a.meshCount = 0 <;>
      simp [processMultipleGo, ha, hm, ih _ hrest]

end ExportUVInfoV1

/-- C4 counterexample: three assets where the second fails to load.  The
orchestrator aborts with the uncaught import exception after exporting only
asset 1; asset 3 is never attempted and no final report is issued — there is
no succeeded/failed summary listing assets 1 and 3 as succeeded and asset 2
as failed. -/
theorem C4_batch_report_cex :
    ExportUVInfoV1.processMultiple
        [ExportUVInfoV1.Asset.mk "a1" false 1,
         ExportUVInfoV1.Asset.mk "a2" true 1,
         ExportUVInfoV1.Asset.mk "a3" false 1]
      = (["a1_Fix.obj"], some "import failed: a2", none) := by decide

/-- C4 amended: a per-asset import failure is not caught: it aborts the
whole batch, so no final report is produced; an import that yields no mesh
objects is silently skipped and the loop continues; and when every import
succeeds the final report is the fixed string "Batch processing complete.",
carrying no per-asset succeeded/failed information. -/
theorem C4_batch_report_amended :
    (∀ assets : List ExportUVInfoV1.Asset,
      (∃ a ∈ assets, a.importRaises = true) →
      (ExportUVInfoV1.processMultiple assets).2.2 = none) ∧
    (∀ (a : ExportUVInfoV1.Asset) (rest : List ExportUVInfoV1.Asset),
      a.importRaises = false → a.meshCount = 0 →
      ExportUVInfoV1.processMultiple (a :: rest)
        = ExportUVInfoV1.processMultiple rest) ∧
    (∀ assets : List ExportUVInfoV1.Asset,
      (∀ a ∈ assets, a.importRaises = false) →
      (ExportUVInfoV1.processMultiple assets).2.2
        = some "Batch processing complete.") := by
  refine ⟨?_, ?_, ?_⟩
  · intro assets h
    have := ExportUVInfoV1.processMultipleGo_raises assets [] h
    rw [ExportUVInfoV1.processMultiple]
    rcases hgo : ExportUVInfoV1.processMultipleGo [] assets with ⟨outs, err⟩
    rw [hgo] at this
    cases err with
    | none => simp at this
    | some e => rfl
  · intro a rest ha hm
    rw [ExportUVInfoV1.processMultiple, ExportUVInfoV1.processMultiple]
    have : ExportUVInfoV1.processMultipleGo [] (a :: rest)
        = ExportUVInfoV1.processMultipleGo [] rest := by
      simp [ExportUVInfoV1.processMultipleGo, ha, hm]
    rw [this]
  · intro assets h
    have := ExportUVInfoV1.processMultipleGo_ok assets [] h
    rw [ExportUVInfoV1.processMultiple]
    rcases hgo : ExportUVInfoV1.processMultipleGo [] assets with ⟨outs, err⟩
    rw [hgo] at this
    subst this
    rfl

/-- Witness for C4's amended theorem: a batch holding a single asset with a
raising import yields no final report. -/
theorem C4_batch_report_amended_witness :
    (∃ a ∈ [ExportUVInfoV1.Asset.mk "bad" true 1], a.importRaises = true) ∧
    (ExportUVInfoV1.processMultiple [ExportUVInfoV1.Asset.mk "bad" true 1]).2.2
      = none :=
  ⟨⟨ExportUVInfoV1.Asset.mk "bad" true 1, by decide⟩,
   C4_batch_report_amended.1 [ExportUVInfoV1.Asset.mk "bad" true 1]
     ⟨ExportUVInfoV1.Asset.mk "bad" true 1, by decide⟩⟩

/-- C8 counterexample: an assignment whose crop did not succeed.  In
`export_uv_info.py` the face is indeed left unmodified (but nothing is
recorded); in `export_uv_infoV1.py`, with image "B"'s only crop missing
from `image_map` while image "A"'s crop succeeded, the remap loop raises a
KeyError on `mat_index_map` and aborts instead of leaving the face alone. -/
theorem C8_remap_missing_crop_cex :
    ExportUVInfo.remapFace [(("A", 1), ("outA.png", "A_variant1.png"))]
        (fun _ => 0) "B" 1 (FaceState.mk 0 [(0, 0), (1, 1)])
      = FaceState.mk 0 [(0, 0), (1, 1)] ∧
    ExportUVInfoV1.remapAllV1 true [(("A", 1), "outA.png")] (fun _ => 0)
        [("A", [(Box.mk 0 0 1 1, "pA", 1)]), ("B", [(Box.mk 1 1 2 2, "pB", 1)])]
        [("A", 4, 4), ("B", 4, 4)] [(("A", 1), Box.mk 0 0 1 1)] false
        [(0, "B", Box.mk 1 1 2 2)] [FaceState.mk 0 [(0, 0)]]
      = .error "KeyError: B_variant1" := by
  constructor
  · rfl
  · rfl

/-- C8 amended: `export_uv_info.py` leaves a face whose assignment has no
successful crop completely unmodified, silently skipping it (no omission is
recorded); `export_uv_infoV1.py` instead raises a KeyError on the missing
material and aborts the remap loop whenever at least one other crop
succeeded, and only when `image_map` is empty (no crop succeeded at all, or
cropping was disabled) is the remap stage skipped with every face left
untouched. -/
theorem C8_remap_missing_crop_amended :
    (∀ (imageMap : List ((String × Nat) × String × String))
       (matIndexOf : String → Nat) (name : String) (variant : Nat)
       (face : FaceState),
      lookupA imageMap (name, variant) = none →
      ExportUVInfo.remapFace imageMap matIndexOf name variant face = face) ∧
    (∀ (gv : List (String × List (Box × String × Nat)))
       (mim : List (String × Nat)) (gs : List (String × Int × Int))
       (cb : List ((String × Nat) × Box)) (cpb : Bool)
       (name : String) (bounds : Box) (face : FaceState)
       (variants : List (Box × String × Nat)) (t : Box × String × Nat),
      lookupA gv name = some variants →
      variants.find? (fun s => s.1 = bounds) = some t →
      lookupA mim (name ++ "_variant" ++ toString t.2.2) = none →
      ExportUVInfoV1.remapFaceV1 gv mim gs cb cpb name bounds face
        = .error ("KeyError: " ++ name ++ "_variant" ++ toString t.2.2)) ∧
    (∀ (remapModel : Bool) (matFind : String → Nat)
       (gv : List (String × List (Box × String × Nat)))
       (gs : List (String × Int × Int)) (cb : List ((String × Nat) × Box))
       (cpb : Bool) (assignments : List (Nat × String × Box))
       (faces : List FaceState),
      ExportUVInfoV1.remapAllV1 remapModel [] matFind gv gs cb cpb
          assignments faces
        = .ok faces) := by
  refine ⟨?_, ?_, ?_⟩
  · intro imageMap matIndexOf name variant face h
    simp [ExportUVInfo.remapFace, h]
  · intro gv mim gs cb cpb name bounds face variants t h1 h2 h3
    simp only [ExportUVInfoV1.remapFaceV1, h1, h2]
    rw [h3]
    simp [String.append_assoc]
  · intro remapModel matFind gv gs cb cpb assignments faces
    simp [ExportUVInfoV1.remapAllV1]

/-- Witness for C8's amended theorem: an empty crop map leaves a concrete
face unmodified. -/
theorem C8_remap_missing_crop_amended_witness :
    lookupA ([] : List ((String × Nat) × String × String)) ("A", 1) = none ∧
    ExportUVInfo.remapFace [] (fun _ => 0) "A" 1 (FaceState.mk 0 [(0, 0)])
      = FaceState.mk 0 [(0, 0)] :=
  ⟨rfl,
   C8_remap_missing_crop_amended.1 [] (fun _ => 0) "A" 1
     (FaceState.mk 0 [(0, 0)]) rfl⟩

namespace ExportUVInfoV1

theorem metadataLines_inner (name : String) (vs : List (Box × String × Nat)) :
    ∀ acc : List String × List String × List String,
      vs.foldl
        (fun acc2 t =>
          (acc2.1 ++ [coordLine name t.2.2 t.1],
           acc2.2.1 ++ [nameLine name t.2.2],
           acc2.2.2 ++ [cropLine name]))
        acc
      = (acc.1 ++ vs.map (fun t => coordLine name t.2.2 t.1),
         acc.2.1 ++ vs.map (fun t => nameLine name t.2.2),
         acc.2.2 ++ vs.map (fun _ => cropLine name)) := by
  induction vs with
  | nil => intro acc; simp
  | cons u rest ih =>
    intro acc
    simp only [List.foldl_cons, ih, List.map_cons]
    simp

theorem metadataLines_go (gv : List (String × List (Box × String × Nat))) :
    ∀ acc : List String × List String × List String,
      gv.foldl
        (fun acc nv =>
          nv.2.foldl
            (fun acc2 t =>
              (acc2.1 ++ [coordLine nv.1 t.2.2 t.1],
               acc2.2.1 ++ [nameLine nv.1 t.2.2],
               acc2.2.2 ++ [cropLine nv.1]))
            acc)
        acc
      = (acc.1 ++ (variantTriples gv).map (fun t => coordLine t.1 t.2.2 t.2.1),
         acc.2.1 ++ (variantTriples gv).map (fun t => nameLine t.1 t.2.2),
         acc.2.2 ++ (variantTriples gv).map (fun t => cropLine t.1)) := by
  induction gv with
  | nil => intro acc; simp [variantTriples]
  | cons nv rest ih =>
    intro acc
    simp only [List.foldl_cons]
    rw [metadataLines_inner, ih]
    simp [variantTriples, Function.comp_def, List.append_assoc, Prod.ext_iff]

theorem metadataLines_eq (gv : List (String × List (Box × String × Nat))) :
    metadataLines gv
      = ((variantTriples gv).map (fun t => coordLine t.1 t.2.2 t.2.1),
         (variantTriples gv).map (fun t => nameLine t.1 t.2.2),
         (variantTriples gv).map (fun t => cropLine t.1)) := by
  simpa using metadataLines_go gv ([], [], [])

theorem setSize_keys (name : String) (wh : Int × Int) :
    ∀ gs : List (String × Int × Int),
      (setSize gs name wh).map (fun p => p.1)
        = if name ∈ gs.map (fun p => p.1) then gs.map (fun p => p.1)
          else gs.map (fun p => p.1) ++ [name] := by
  intro gs
  induction gs with
  | nil => simp [setSize]
  | cons p rest ih =>
    by_cases h : p.1 = name
    · simp [setSize, h]
    · have hne : ¬ name = p.1 := fun he => h he.symm
      simp only [setSize, if_neg h, List.map_cons, ih]
      by_cases hm : name ∈ rest.map (fun p => p.1) <;>
        simp [hm, hne]

theorem setSize_keys_nodup (gs : List (String × Int × Int)) (name : String)
    (wh : Int × Int) (h : (gs.map (fun p => p.1)).Nodup) :
    ((setSize gs name wh).map (fun p => p.1)).Nodup := by
  rw [setSize_keys]
  by_cases hm : name ∈ gs.map (fun p => p.1)
  · simpa [hm] using h
  · simp only [hm, if_false]
    rw [List.nodup_append]
    exact ⟨h, List.nodup_singleton name, by simpa using hm⟩

theorem gather_sizes_nodup_go (ifaces : List (Nat × Face)) :
    ∀ st : GatherState, (st.sizes.map (fun p => p.1)).Nodup →
      (((ifaces.foldl gatherFaceV1 st).sizes).map (fun p => p.1)).Nodup := by
  induction ifaces with
  | nil => intro st h; simpa using h
  | cons f rest ih =>
    intro st h
    simp only [List.foldl_cons]
    apply ih
    cases him : f.2.image with
    | none => simpa [gatherFaceV1, him] using h
    | some im =>
      simp only [gatherFaceV1, him]
      exact setSize_keys_nodup _ _ _ h

end ExportUVInfoV1

namespace ExportUVInfo

theorem pyFold_aligned (ifaces : List (Nat × Face)) :
    ∀ st : PyState, ∃ ts : List (String × Nat × Box),
      (ifaces.foldl pyFaceStep st).coordData
        = st.coordData ++ ts.map (fun t => coordLine t.1 t.2.1 t.2.2) ∧
      (ifaces.foldl pyFaceStep st).nameData
        = st.nameData ++ ts.map (fun t => nameLine t.1 t.2.1) ∧
      (ifaces.foldl pyFaceStep st).cropData
        = st.cropData ++ ts.map (fun t => cropLine t.1) := by
  induction ifaces with
  | nil => intro st; exact ⟨[], by simp, by simp, by simp⟩
  | cons f rest ih =>
    intro st
    cases him : f.2.image with
    | none =>
      obtain ⟨ts, h1, h2, h3⟩ := ih st
      have hstep : pyFaceStep st f = st := by simp [pyFaceStep, him]
      refine ⟨ts, ?_, ?_, ?_⟩ <;> simp only [List.foldl_cons, hstep] <;> assumption
    | some im =>
      obtain ⟨ts, h1, h2, h3⟩ := ih (pyFaceStep st f)
      refine ⟨(im.name, (dedup st.unique im.name
          (faceBounds f.2.loops im.w im.h)).1,
          faceBounds f.2.loops im.w im.h) :: ts, ?_, ?_, ?_⟩
      · rw [List.foldl_cons, h1]
        simp [pyFaceStep, him]
      · rw [List.foldl_cons, h2]
        simp [pyFaceStep, him]
      · rw [List.foldl_cons, h3]
        simp [pyFaceStep, him]

theorem pyFold_count (ifaces : List (Nat × Face)) :
    ∀ st : PyState,
      (ifaces.foldl pyFaceStep st).nameData.length
        = st.nameData.length
          + (ifaces.filter (fun p => p.2.image.isSome)).length := by
  induction ifaces with
  | nil => intro st; simp
  | cons f rest ih =>
    intro st
    cases him : f.2.image with
    | none =>
      have hstep : pyFaceStep st f = st := by simp [pyFaceStep, him]
      simp [List.foldl_cons, hstep, ih, List.filter_cons, him]
    | some im =>
      rw [List.foldl_cons, ih]
      simp only [List.filter_cons, him, Option.isSome_some]
      simp [pyFaceStep, him]
      omega

end ExportUVInfo

theorem enumFrom_filter_snd_length {α : Type} (q : α → Bool) (l : List α) :
    ∀ n, ((List.enumFrom n l).filter (fun p => q p.2)).length
      = (l.filter q).length := by
  induction l with
  | nil => intro n; rfl
  | cons a rest ih =>
    intro n
    simp only [List.enumFrom, List.filter_cons]
    by_cases h : q a <;> simp [h, ih]

/-- C10: in both files the coordinates, variant-names and source-image-names
listings are appended together in the same loop body, one entry per
processed unit (per face with a resolved image in `export_uv_info.py`, per
deduplicated variant in `export_uv_infoV1.py`), so the three listings have
the same number of lines and line i of each describes the same unit. -/
theorem C10_listings_aligned :
    (∀ faces : List Face, ∃ ts : List (String × Nat × Box),
      (ExportUVInfo.pyExport faces).coordData
        = ts.map (fun t => ExportUVInfo.coordLine t.1 t.2.1 t.2.2) ∧
      (ExportUVInfo.pyExport faces).nameData
        = ts.map (fun t => ExportUVInfo.nameLine t.1 t.2.1) ∧
      (ExportUVInfo.pyExport faces).cropData
        = ts.map (fun t => ExportUVInfo.cropLine t.1) ∧
      (ExportUVInfo.pyExport faces).coordData.length
        = (ExportUVInfo.pyExport faces).nameData.length ∧
      (ExportUVInfo.pyExport faces).nameData.length
        = (ExportUVInfo.pyExport faces).cropData.length) ∧
    (∀ gv : List (String × List (Box × String × Nat)),
      ExportUVInfoV1.metadataLines gv
        = ((ExportUVInfoV1.variantTriples gv).map
             (fun t => ExportUVInfoV1.coordLine t.1 t.2.2 t.2.1),
           (ExportUVInfoV1.variantTriples gv).map
             (fun t => ExportUVInfoV1.nameLine t.1 t.2.2),
           (ExportUVInfoV1.variantTriples gv).map
             (fun t => ExportUVInfoV1.cropLine t.1)) ∧
      (ExportUVInfoV1.metadataLines gv).1.length
        = (ExportUVInfoV1.metadataLines gv).2.1.length ∧
      (ExportUVInfoV1.metadataLines gv).2.1.length
        = (ExportUVInfoV1.metadataLines gv).2.2.length) := by
  constructor
  · intro faces
    obtain ⟨ts, h1, h2, h3⟩ := ExportUVInfo.pyFold_aligned faces.enum
        ⟨[], [], [], [], [], [], [], []⟩
    refine ⟨ts, by simpa [ExportUVInfo.pyExport] using h1,
      by simpa [ExportUVInfo.pyExport] using h2,
      by simpa [ExportUVInfo.pyExport] using h3, ?_, ?_⟩ <;>
      simp [ExportUVInfo.pyExport] at h1 h2 h3 <;>
      simp [ExportUVInfo.pyExport, h1, h2, h3]
  · intro gv
    refine ⟨ExportUVInfoV1.metadataLines_eq gv, ?_, ?_⟩ <;>
      simp [ExportUVInfoV1.metadataLines_eq]

/-- C9 counterexample: an image with two deduplicated variants.  The three
listings each get two lines (one per variant), but `global_sizes` is a dict
keyed by image name — written once per face, overwriting, as in the state
reached after two faces of image "A" with distinct bounds — so the sizes
listing has a single line for "A" instead of one per variant. -/
theorem C9_sizes_per_variant_cex :
    (ExportUVInfoV1.metadataLines
        (ExportUVInfoV1.dedupAll
          [("A", [(Box.mk 0 4 0 4, "pA"), (Box.mk 2 2 2 2, "pA")])])).2.1.length
      = 2 ∧
    (ExportUVInfoV1.sizesLines
        (ExportUVInfoV1.setSize
          (ExportUVInfoV1.setSize [] "A" (4, 4)) "A" (4, 4))).length = 1 ∧
    (2 : Nat) ≠ 1 := by
  refine ⟨?_, rfl, by decide⟩
  rfl

/-- C9 amended: `export_uv_infoV1.py` emits the three aligned listings with
exactly one entry per deduplicated variant, in the table's first-seen
order, but the sizes listing has exactly one `(image_name, width, height)`
entry per image — not one per variant of that image (`global_sizes` has no
duplicate image keys).  `export_uv_info.py` instead emits one entry per
face that resolves an image, not one per deduplicated variant. -/
theorem C9_serializer_amended :
    (∀ gv : List (String × List (Box × String × Nat)),
      ExportUVInfoV1.metadataLines gv
        = ((ExportUVInfoV1.variantTriples gv).map
             (fun t => ExportUVInfoV1.coordLine t.1 t.2.2 t.2.1),
           (ExportUVInfoV1.variantTriples gv).map
             (fun t => ExportUVInfoV1.nameLine t.1 t.2.2),
           (ExportUVInfoV1.variantTriples gv).map
             (fun t => ExportUVInfoV1.cropLine t.1))) ∧
    (∀ raw : List (String × List (Box × String)),
      (ExportUVInfoV1.dedupAll raw).map (fun p => p.2.map (fun t => t.1))
        = raw.map (fun p => ExportUVInfoV1.firstSeen (p.2.map Prod.fst))) ∧
    (∀ gs : List (String × Int × Int),
      (ExportUVInfoV1.sizesLines gs).length = gs.length) ∧
    (∀ faces : List Face,
      (((ExportUVInfoV1.gatherV1 faces).sizes).map (fun p => p.1)).Nodup) ∧
    (∀ faces : List Face,
      (ExportUVInfo.pyExport faces).nameData.length
        = (faces.filter (fun f => f.image.isSome)).length) := by
  refine ⟨ExportUVInfoV1.metadataLines_eq, ?_, ?_, ?_, ?_⟩
  · intro raw
    simp only [ExportUVInfoV1.dedupAll, List.map_map]
    apply List.map_congr_left
    intro p _
    simpa [ExportUVInfoV1.dedupPass] using ExportUVInfoV1.dedupPass_go p.2 []
  · intro gs
    simp [ExportUVInfoV1.sizesLines]
  · intro faces
    exact ExportUVInfoV1.gather_sizes_nodup_go faces.enum ⟨[], [], []⟩ (by simp)
  · intro faces
    have h := ExportUVInfo.pyFold_count faces.enum ⟨[], [], [], [], [], [], [], []⟩
    simp only [ExportUVInfo.pyExport, h]
    simpa using enumFrom_filter_snd_length (fun f => f.image.isSome) faces 0

namespace ExportUVInfoV1

theorem flood_nil {n : Nat} (adj : Fin n → List (Fin n)) (visited : Finset (Fin n)) :
    flood adj [] visited = ([], visited) := by
  rw [flood]

theorem flood_cons_mem {n : Nat} (adj : Fin n → List (Fin n)) (f : Fin n)
    (rest : List (Fin n)) (visited : Finset (Fin n)) (h : f ∈ visited) :
    flood adj (f :: rest) visited = flood adj rest visited := by
  rw [flood]
  simp [h]

theorem flood_cons_new {n : Nat} (adj : Fin n → List (Fin n)) (f : Fin n)
    (rest : List (Fin n)) (visited : Finset (Fin n)) (h : f ∉ visited) :
    flood adj (f :: rest) visited
      = (f :: (flood adj
            (((adj f).filter (fun lf => lf ∉ insert f visited)).reverse ++ rest)
            (insert f visited)).1,
         (flood adj
            (((adj f).filter (fun lf => lf ∉ insert f visited)).reverse ++ rest)
            (insert f visited)).2) := by
  rw [flood]
  simp [h]

theorem flood_visited_subset {n : Nat} (adj : Fin n → List (Fin n))
    (stack : List (Fin n)) (visited : Finset (Fin n)) :
    ∀ x ∈ visited, x ∈ (flood adj stack visited).2 := by
  induction stack, visited using flood.induct adj with
  | case1 visited => intro x hx; simpa [flood_nil] using hx
  | case2 f rest visited hv ih =>
    intro x hx
    rw [flood_cons_mem adj f rest visited hv]
    exact ih x hx
  | case3 f rest visited hv ih =>
    intro x hx
    rw [flood_cons_new adj f rest visited hv]
    exact ih x (Finset.mem_insert_of_mem hx)

theorem flood_stack_subset {n : Nat} (adj : Fin n → List (Fin n))
    (stack : List (Fin n)) (visited : Finset (Fin n)) :
    ∀ a ∈ stack, a ∈ (flood adj stack visited).2 := by
  induction stack, visited using flood.induct adj with
  | case1 visited => intro a ha; simp at ha
  | case2 f rest visited hv ih =>
    intro a ha
    rw [flood_cons_mem adj f rest visited hv]
    rcases List.mem_cons.mp ha with h1 | h1
    · exact flood_visited_subset adj rest visited a (h1 ▸ hv)
    · exact ih a h1
  | case3 f rest visited hv ih =>
    intro a ha
    rw [flood_cons_new adj f rest visited hv]
    rcases List.mem_cons.mp ha with h1 | h1
    · exact flood_visited_subset adj _ _ a
        (h1 ▸ Finset.mem_insert_self f visited)
    · exact ih a (List.mem_append_right _ h1)

theorem flood_mem_snd {n : Nat} (adj : Fin n → List (Fin n))
    (stack : List (Fin n)) (visited : Finset (Fin n)) :
    ∀ x, x ∈ (flood adj stack visited).2
      ↔ x ∈ visited ∨ x ∈ (flood adj stack visited).1 := by
  induction stack, visited using flood.induct adj with
  | case1 visited => intro x; simp [flood_nil]
  | case2 f rest visited hv ih =>
    intro x
    rw [flood_cons_mem adj f rest visited hv]
    exact ih x
  | case3 f rest visited hv ih =>
    intro x
    rw [flood_cons_new adj f rest visited hv]
    rw [ih x]
    simp only [Finset.mem_insert, List.mem_cons]
    tauto

theorem flood_group_fresh {n : Nat} (adj : Fin n → List (Fin n))
    (stack : List (Fin n)) (visited : Finset (Fin n)) :
    ∀ x ∈ (flood adj stack visited).1, x ∉ visited := by
  induction stack, visited using flood.induct adj with
  | case1 visited => intro x hx; simp [flood_nil] at hx
  | case2 f rest visited hv ih =>
    intro x hx
    rw [flood_cons_mem adj f rest visited hv] at hx
    exact ih x hx
  | case3 f rest visited hv ih =>
    intro x hx
    rw [flood_cons_new adj f rest visited hv] at hx
    rcases List.mem_cons.mp hx with h1 | h1
    · exact h1 ▸ hv
    · intro hxv
      exact ih x h1 (Finset.mem_insert_of_mem hxv)

theorem flood_group_nodup {n : Nat} (adj : Fin n → List (Fin n))
    (stack : List (Fin n)) (visited : Finset (Fin n)) :
    (flood adj stack visited).1.Nodup := by
  induction stack, visited using flood.induct adj with
  | case1 visited => simp [flood_nil]
  | case2 f rest visited hv ih =>
    rw [flood_cons_mem adj f rest visited hv]
    exact ih
  | case3 f rest visited hv ih =>
    rw [flood_cons_new adj f rest visited hv]
    refine List.Nodup.cons ?_ ih
    intro hf
    exact flood_group_fresh adj _ _ f hf (Finset.mem_insert_self f visited)

theorem flood_group_reach {n : Nat} (adj : Fin n → List (Fin n))
    (stack : List (Fin n)) (visited : Finset (Fin n)) :
    ∀ x ∈ (flood adj stack visited).1, ∃ a ∈ stack, Reach adj a x := by
  induction stack, visited using flood.induct adj with
  | case1 visited => intro x hx; simp [flood_nil] at hx
  | case2 f rest visited hv ih =>
    intro x hx
    rw [flood_cons_mem adj f rest visited hv] at hx
    obtain ⟨a, ha, hr⟩ := ih x hx
    exact ⟨a, List.mem_cons_of_mem _ ha, hr⟩
  | case3 f rest visited hv ih =>
    intro x hx
    rw [flood_cons_new adj f rest visited hv] at hx
    rcases List.mem_cons.mp hx with h1 | h1
    · exact ⟨f, List.mem_cons_self f rest, h1 ▸ Relation.ReflTransGen.refl⟩
    · obtain ⟨a, ha, hr⟩ := ih x h1
      rcases List.mem_append.mp ha with h2 | h2
      · have haf : a ∈ adj f := (List.mem_filter.mp (List.mem_reverse.mp h2)).1
        exact ⟨f, List.mem_cons_self f rest, Relation.ReflTransGen.head haf hr⟩
      · exact ⟨a, List.mem_cons_of_mem _ h2, hr⟩

theorem flood_closed {n : Nat} (adj : Fin n → List (Fin n))
    (stack : List (Fin n)) (visited : Finset (Fin n)) :
    ∀ x ∈ (flood adj stack visited).2, x ∉ visited →
      ∀ g ∈ adj x, g ∈ (flood adj stack visited).2 := by
  induction stack, visited using flood.induct adj with
  | case1 visited =>
    intro x hx hxv
    rw [flood_nil] at hx
    exact absurd hx hxv
  | case2 f rest visited hv ih =>
    intro x hx hxv g hg
    rw [flood_cons_mem adj f rest visited hv] at hx ⊢
    exact ih x hx hxv g hg
  | case3 f rest visited hv ih =>
    intro x hx hxv g hg
    rw [flood_cons_new adj f rest visited hv] at hx ⊢
    by_cases hxf : x = f
    · subst hxf
      by_cases hgi : g ∈ insert x visited
      · exact flood_visited_subset adj _ _ g hgi
      · have : g ∈ ((adj x).filter (fun lf => lf ∉ insert x visited)).reverse := by
          rw [List.mem_reverse, List.mem_filter]
          exact ⟨hg, by simpa using hgi⟩
        exact flood_stack_subset adj _ _ g (List.mem_append_left _ this)
    · have hxi : x ∉ insert f visited := by
        simp only [Finset.mem_insert]
        tauto
      exact ih x hx hxi g hg

theorem reach_mem_of_closed {n : Nat} (adj : Fin n → List (Fin n))
    (v : Finset (Fin n)) (hcl : ClosedUnder adj v) :
    ∀ p q : Fin n, Reach adj p q → p ∈ v → q ∈ v := by
  intro p q h hp
  induction h with
  | refl => exact hp
  | tail _ hstep ih => exact hcl _ ih _ hstep

theorem reach_symm {n : Nat} (adj : Fin n → List (Fin n))
    (hsym : ∀ a b : Fin n, b ∈ adj a → a ∈ adj b) :
    ∀ p q : Fin n, Reach adj p q → Reach adj q p :=
  fun _ _ h => Relation.ReflTransGen.symmetric (fun _ _ hr => hsym _ _ hr) h

theorem flood_component {n : Nat} (adj : Fin n → List (Fin n))
    (hsym : ∀ a b : Fin n, b ∈ adj a → a ∈ adj b)
    (v : Finset (Fin n)) (hcl : ClosedUnder adj v) (a : Fin n) (ha : a ∉ v) :
    (∀ x, x ∈ (flood adj [a] v).1 ↔ Reach adj a x)
      ∧ ClosedUnder adj (flood adj [a] v).2 := by
  have hfresh : ∀ x, Reach adj a x → x ∉ v := by
    intro x hr hx
    exact ha (reach_mem_of_closed adj v hcl x a (reach_symm adj hsym a x hr) hx)
  have hchar : ∀ x, x ∈ (flood adj [a] v).1 ↔ Reach adj a x := by
    intro x
    constructor
    · intro hx
      obtain ⟨b, hb, hr⟩ := flood_group_reach adj [a] v x hx
      rcases List.mem_singleton.mp hb with rfl
      exact hr
    · intro hr
      induction hr with
      | refl =>
        have hmem : a ∈ (flood adj [a] v).2 :=
          flood_stack_subset adj [a] v a (List.mem_singleton_self a)
        rcases (flood_mem_snd adj [a] v a).mp hmem with h1 | h1
        · exact absurd h1 ha
        · exact h1
      | tail hab hstep ih =>
        rename_i b c
        have hb2 : b ∈ (flood adj [a] v).2 :=
          ((flood_mem_snd adj [a] v b).mpr (Or.inr ih))
        have hbv : b ∉ v := flood_group_fresh adj [a] v b ih
        have hc2 : c ∈ (flood adj [a] v).2 :=
          flood_closed adj [a] v b hb2 hbv c hstep
        have hcv : c ∉ v := hfresh c (Relation.ReflTransGen.tail hab hstep)
        rcases (flood_mem_snd adj [a] v c).mp hc2 with h1 | h1
        · exact absurd h1 hcv
        · exact h1
  refine ⟨hchar, ?_⟩
  intro x hx g hg
  by_cases hxv : x ∈ v
  · exact flood_visited_subset adj [a] v g (hcl x hxv g hg)
  · exact flood_closed adj [a] v x hx hxv g hg

theorem floodAll_spec {n : Nat} (adj : Fin n → List (Fin n))
    (hsym : ∀ a b : Fin n, b ∈ adj a → a ∈ adj b) :
    ∀ (faces : List (Fin n)) (v : Finset (Fin n)), ClosedUnder adj v →
      (∀ G ∈ floodAll adj faces v,
        G.Nodup ∧ ∃ a, ∀ x, x ∈ G ↔ Reach adj a x) ∧
      (∀ f ∈ faces, f ∉ v → ∃ G ∈ floodAll adj faces v, f ∈ G) := by
  intro faces
  induction faces with
  | nil =>
    intro v _
    constructor
    · intro G hG; simp [floodAll] at hG
    · intro f hf; simp at hf
  | cons f faces ih =>
    intro v hcl
    by_cases hv : f ∈ v
    · have heq : floodAll adj (f :: faces) v = floodAll adj faces v := by
        simp [floodAll, hv]
      rw [heq]
      obtain ⟨h1, h2⟩ := ih v hcl
      refine ⟨h1, ?_⟩
      intro g hg hgv
      rcases List.mem_cons.mp hg with rfl | hg2
      · exact absurd hv hgv
      · exact h2 g hg2 hgv
    · have heq : floodAll adj (f :: faces) v
          = (flood adj [f] v).1 :: floodAll adj faces (flood adj [f] v).2 := by
        simp [floodAll, hv]
      obtain ⟨hchar, hcl2⟩ := flood_component adj hsym v hcl f hv
      obtain ⟨h1, h2⟩ := ih (flood adj [f] v).2 hcl2
      rw [heq]
      constructor
      · intro G hG
        rcases List.mem_cons.mp hG with rfl | hG2
        · exact ⟨flood_group_nodup adj [f] v, f, hchar⟩
        · exact h1 G hG2
      · intro g hg hgv
        rcases List.mem_cons.mp hg with rfl | hg2
        · exact ⟨(flood adj [g] v).1, List.mem_cons_self _ _,
            (hchar g).mpr Relation.ReflTransGen.refl⟩
        · by_cases hg2v : g ∈ (flood adj [f] v).2
          · rcases (flood_mem_snd adj [f] v g).mp hg2v with h3 | h3
            · exact absurd h3 hgv
            · exact ⟨(flood adj [f] v).1, List.mem_cons_self _ _, h3⟩
          · obtain ⟨G, hG, hgG⟩ := h2 g hg2 hg2v
            exact ⟨G, List.mem_cons_of_mem _ hG, hgG⟩

theorem list_eq_singleton_of {α : Type} (G : List α) (f : α) (hf : f ∈ G)
    (hall : ∀ x ∈ G, x = f) (hnd : G.Nodup) : G = [f] := by
  cases G with
  | nil => cases hf
  | cons x t =>
    have hx : x = f := hall x (by simp)
    subst hx
    cases t with
    | nil => rfl
    | cons y t2 =>
      have hy : y = x := hall y (by simp)
      rw [List.nodup_cons] at hnd
      exact absurd (show x ∈ y :: t2 by simp [hy.symm]) hnd.1

end ExportUVInfoV1

/-- C6: with a symmetric shared-edge neighbour relation (as `e.link_faces`
is), the stack-based flood fill of island mode partitions the faces into
exactly the connected components of edge-sharing: two faces sharing an edge
land in a common island; two faces with no transitive edge-sharing path
never share an island; and a face with no neighbour other than itself forms
a singleton island. -/
theorem C6_islands_are_components {n : Nat} (adj : Fin n → List (Fin n))
    (hsym : ∀ a b : Fin n, b ∈ adj a → a ∈ adj b) :
    (∀ f g : Fin n, g ∈ adj f →
      ∃ G ∈ ExportUVInfoV1.islands adj, f ∈ G ∧ g ∈ G) ∧
    (∀ f g : Fin n, ¬ ExportUVInfoV1.Reach adj f g →
      ¬ ∃ G ∈ ExportUVInfoV1.islands adj, f ∈ G ∧ g ∈ G) ∧
    (∀ f : Fin n, (∀ x ∈ adj f, x = f) →
      ∀ G ∈ ExportUVInfoV1.islands adj, f ∈ G → G = [f]) := by
  have hcl : ExportUVInfoV1.ClosedUnder adj (∅ : Finset (Fin n)) := by
    intro x hx
    exact absurd hx (Finset.not_mem_empty x)
  obtain ⟨hgroups, hcover⟩ :=
    ExportUVInfoV1.floodAll_spec adj hsym (List.finRange n) ∅ hcl
  refine ⟨?_, ?_, ?_⟩
  · intro f g hg
    obtain ⟨G, hG, hfG⟩ :=
      hcover f (List.mem_finRange f) (Finset.not_mem_empty f)
    obtain ⟨-, a, hchar⟩ := hgroups G hG
    have haf : ExportUVInfoV1.Reach adj a f := (hchar f).mp hfG
    have hag : ExportUVInfoV1.Reach adj a g :=
      Relation.ReflTransGen.tail haf hg
    exact ⟨G, hG, hfG, (hchar g).mpr hag⟩
  · rintro f g hnr ⟨G, hG, hfG, hgG⟩
    obtain ⟨-, a, hchar⟩ := hgroups G hG
    have haf : ExportUVInfoV1.Reach adj a f := (hchar f).mp hfG
    have hag : ExportUVInfoV1.Reach adj a g := (hchar g).mp hgG
    exact hnr (Relation.ReflTransGen.trans
      (ExportUVInfoV1.reach_symm adj hsym a f haf) hag)
  · intro f hiso G hG hfG
    obtain ⟨hnd, a, hchar⟩ := hgroups G hG
    have hreach_iso : ∀ x, ExportUVInfoV1.Reach adj f x → x = f := by
      intro x hr
      induction hr with
      | refl => rfl
      | tail _ hstep ih =>
        subst ih
        exact hiso _ hstep
    have haf : ExportUVInfoV1.Reach adj a f := (hchar f).mp hfG
    have haf2 : a = f :=
      hreach_iso a (ExportUVInfoV1.reach_symm adj hsym a f haf)
    subst haf2
    refine ExportUVInfoV1.list_eq_singleton_of G a hfG ?_ hnd
    intro x hx
    exact hreach_iso x ((hchar x).mp hx)

/-- Witness for C6 on the concrete mesh `adjEx`. -/
theorem C6_islands_are_components_witness :
    (∀ a b : Fin 3, b ∈ adjEx a → a ∈ adjEx b) ∧
    ((∀ f g : Fin 3, g ∈ adjEx f →
       ∃ G ∈ ExportUVInfoV1.islands adjEx, f ∈ G ∧ g ∈ G) ∧
     (∀ f g : Fin 3, ¬ ExportUVInfoV1.Reach adjEx f g →
       ¬ ∃ G ∈ ExportUVInfoV1.islands adjEx, f ∈ G ∧ g ∈ G) ∧
     (∀ f : Fin 3, (∀ x ∈ adjEx f, x = f) →
       ∀ G ∈ ExportUVInfoV1.islands adjEx, f ∈ G → G = [f])) :=
  ⟨by decide, C6_islands_are_components adjEx (by decide)⟩
